import Mathlib

/-!
Verification of the URN (Identifier) value type of `go-platform`,
shallowly embedded from `src/pkg/net/v1/urn.go`.

Go strings are modelled as lists of characters (`GoString`); Go's
multi-value returns `(URN, error)` are modelled as pairs
`URN × Option URNError`, so an error outcome still carries the URN
value that Go returns alongside it.  `strings.Split` specialised to the
one-character delimiter `":"` is modelled by `stringsSplit`.  Go error
values are modelled by the inductive `URNError`, with one constructor
per distinct error construction site in the source; the predicate
`URNError.isInvalidFormat` models `errors.Is(err, ErrInvalidFormat)`,
true exactly for errors built from `ErrInvalidFormat` itself or
wrapping it with the `%w` verb.
-/

namespace UrnSpec

/-- Go strings, modelled as lists of characters. -/
abbrev GoString := List Char

/-- Build a `GoString` from a Lean string literal. -/
def gs (s : String) : GoString := s.data

/-- Constant `Scheme = "urn"` from the source. -/
def Scheme : GoString := gs "urn"

/-- Constant `SecureMessaging = "sm"` from the source. -/
def SecureMessaging : GoString := gs "sm"

/-- Constant `EntityTypeUser = "user"` from the source. -/
def EntityTypeUser : GoString := gs "user"

/-- Constant `urnDelimiter = ":"` from the source (one character). -/
def urnDelimiter : Char := ':'

/-- The accepted namespace set: the source accepts only `SecureMessaging`. -/
def acceptedNamespaces : List GoString := [SecureMessaging]

/-- The URN struct: four unexported string fields.  The Go field
`namespace` is called `nspace` here because `namespace` is a Lean
keyword. -/
structure URN where
  scheme : GoString
  nspace : GoString
  entityType : GoString
  entityID : GoString
deriving DecidableEq

/-- The zero value `URN{}`. -/
def URN.zero : URN := ⟨[], [], [], []⟩

/-- Go error values produced by this package, one constructor per
construction site in the source:
* `errInvalidFormat` — the sentinel `ErrInvalidFormat` returned directly by `New`;
* `invalidNamespace` — `fmt.Errorf("invalid namespace: ...")`, no `%w`;
* `wrongPartCount` — `fmt.Errorf("%w: expected %d parts, got %d", ErrInvalidFormat, ...)`;
* `invalidScheme` — `fmt.Errorf("invalid scheme: ...")`, no `%w`;
* `emptyEntityType` / `emptyEntityID` — plain `fmt.Errorf`, no `%w`;
* `jsonNotString` — the wrapper around the `json.Unmarshal` type error;
* `fromProtoWrap` — `fmt.Errorf("failed to convert proto to native URN: %w", err)`. -/
inductive URNError where
  | errInvalidFormat
  | invalidNamespace (got : GoString)
  | wrongPartCount (got : Nat)
  | invalidScheme (got : GoString)
  | emptyEntityType
  | emptyEntityID
  | jsonNotString
  | fromProtoWrap (cause : URNError)
deriving DecidableEq

/-- Models `errors.Is(e, ErrInvalidFormat)`: true exactly for the
sentinel itself and for errors wrapping it via the `%w` verb. -/
def URNError.isInvalidFormat : URNError → Bool
  | .errInvalidFormat => true
  | .wrongPartCount _ => true
  | .fromProtoWrap e => e.isInvalidFormat
  | _ => false

/-- `New(namespace, entityType, entityID) (URN, error)` from the source:
reject if any argument is empty (`ErrInvalidFormat`), reject a namespace
other than `SecureMessaging`, otherwise populate all four fields with
`scheme` hardcoded to `Scheme`. -/
def New (nspace entityType entityID : GoString) : URN × Option URNError :=
  if nspace = [] ∨ entityType = [] ∨ entityID = [] then
    (URN.zero, some .errInvalidFormat)
  else if nspace ≠ SecureMessaging then
    (URN.zero, some (.invalidNamespace nspace))
  else
    (⟨Scheme, nspace, entityType, entityID⟩, none)

/-- `strings.Split(s, ":")` specialised to a one-character separator:
splits around every occurrence of `sep`; the empty string yields `[""]`. -/
def stringsSplit (sep : Char) : GoString → List GoString
  | [] => [[]]
  | c :: rest =>
      match stringsSplit sep rest with
      | [] => [[c]]
      | p :: ps => if c = sep then [] :: p :: ps else (c :: p) :: ps

/-- `Parse(s string) (URN, error)` from the source: empty input yields the
zero value with no error; one part (no delimiter) is a legacy bare
identifier migrated through `New(SecureMessaging, EntityTypeUser, s)`;
four parts are checked (scheme literal, namespace, non-empty entity type
and ID) and assembled; any other part count is a wrong-part-count
error wrapping `ErrInvalidFormat`. -/
def Parse (s : GoString) : URN × Option URNError :=
  if s = [] then (URN.zero, none)
  else
    match stringsSplit urnDelimiter s with
    | [_] => New SecureMessaging EntityTypeUser s
    | [p0, p1, p2, p3] =>
        if p0 ≠ Scheme then (URN.zero, some (.invalidScheme p0))
        else if p1 ≠ SecureMessaging then (URN.zero, some (.invalidNamespace p1))
        else if p2 = [] then (URN.zero, some .emptyEntityType)
        else if p3 = [] then (URN.zero, some .emptyEntityID)
        else (⟨p0, p1, p2, p3⟩, none)
    | parts => (URN.zero, some (.wrongPartCount parts.length))

/-- `IsZero()` from the source: all four fields are empty. -/
def URN.IsZero (u : URN) : Bool :=
  u.scheme == [] && u.nspace == [] && u.entityType == [] && u.entityID == []

/-- `String()` from the source: the zero value prints as `""`; otherwise
`fmt.Sprintf("%s:%s:%s:%s", scheme, namespace, entityType, entityID)`. -/
def URN.string (u : URN) : GoString :=
  if u.IsZero then []
  else u.scheme ++ urnDelimiter :: u.nspace ++ urnDelimiter :: u.entityType ++ urnDelimiter :: u.entityID

/-- A JSON value, as far as `encoding/json` distinguishes the cases the
source cares about: `null`, a string, or some non-string value. -/
inductive JValue where
  | null
  | str (s : GoString)
  | num (n : Int)
  | boolean (b : Bool)
  | arr
  | obj
deriving DecidableEq

/-- `json.Unmarshal(data, &s)` for `var s string`: a JSON string sets `s`,
JSON `null` is a no-op leaving `s` at its zero value `""`, and any other
JSON value is a type error. -/
def jsonUnmarshalString : JValue → Except Unit GoString
  | .null => .ok []
  | .str s => .ok s
  | _ => .error ()

/-- `MarshalJSON()` from the source: the zero value encodes to the JSON
literal `null`; otherwise `json.Marshal(u.String())`, a JSON string. -/
def MarshalJSON (u : URN) : JValue :=
  if u.IsZero then .null else .str u.string

/-- `UnmarshalJSON(data)` from the source, on pointer receiver `u`: the
result pair is (final receiver state, error).  A non-string JSON value is
an error leaving the receiver untouched; the empty string (and hence JSON
`null`) assigns the zero value; otherwise `Parse` runs, its error leaves
the receiver untouched, and its success value is assigned. -/
def UnmarshalJSON (u : URN) (data : JValue) : URN × Option URNError :=
  match jsonUnmarshalString data with
  | .error _ => (u, some .jsonNotString)
  | .ok s =>
      if s = [] then (URN.zero, none)
      else
        match Parse s with
        | (parsedURN, none) => (parsedURN, none)
        | (_, some e) => (u, some e)

/-- The protobuf record `netv1.UrnPb` (three string fields; no scheme). -/
structure UrnPb where
  nspace : GoString
  entityType : GoString
  entityId : GoString
deriving DecidableEq

/-- `ToProto(native)` from the source: the zero value maps to `nil`
(absent); otherwise a record of the three non-scheme fields. -/
def ToProto (native : URN) : Option UrnPb :=
  if native.IsZero then none
  else some ⟨native.nspace, native.entityType, native.entityID⟩

/-- `FromProto(proto)` from the source: `nil` maps to the zero value with
no error; a present record goes through `New`, whose error is wrapped
with `%w` context. -/
def FromProto : Option UrnPb → URN × Option URNError
  | none => (URN.zero, none)
  | some pb =>
      match New pb.nspace pb.entityType pb.entityId with
      | (native, none) => (native, none)
      | (_, some e) => (URN.zero, some (.fromProtoWrap e))

/-- A fully valid URN in the sense of the spec invariant: all four fields
non-empty, namespace within the accepted set, scheme the fixed literal. -/
def URN.Valid (u : URN) : Prop :=
  u.scheme ≠ [] ∧ u.nspace ≠ [] ∧ u.entityType ≠ [] ∧ u.entityID ≠ [] ∧
  u.nspace ∈ acceptedNamespaces ∧ u.scheme = Scheme

instance (u : URN) : Decidable u.Valid := by
  unfold URN.Valid; infer_instance

/-! ### Helper lemmas about `stringsSplit` -/

theorem stringsSplit_ne_nil (sep : Char) (s : GoString) : stringsSplit sep s ≠ [] := by
  cases s with
  | nil => simp [stringsSplit]
  | cons c rest =>
      simp only [stringsSplit]
      cases stringsSplit sep rest with
      | nil => simp
      | cons p ps => by_cases h : c = sep <;> simp [h]

theorem stringsSplit_of_not_mem (sep : Char) :
    ∀ s : GoString, sep ∉ s → stringsSplit sep s = [s] := by
  intro s
  induction s with
  | nil => intro _; rfl
  | cons c rest ih =>
      intro h
      rw [List.mem_cons, not_or] at h
      obtain ⟨hc, hrest⟩ := h
      simp only [stringsSplit, ih hrest]
      simp [Ne.symm hc]

theorem stringsSplit_append (sep : Char) :
    ∀ a b : GoString, sep ∉ a →
      stringsSplit sep (a ++ sep :: b) = a :: stringsSplit sep b := by
  intro a
  induction a with
  | nil =>
      intro b _
      simp only [List.nil_append, stringsSplit]
      cases h : stringsSplit sep b with
      | nil => exact absurd h (stringsSplit_ne_nil sep b)
      | cons p ps => simp
  | cons c a' ih =>
      intro b h
      rw [List.mem_cons, not_or] at h
      obtain ⟨hc, ha'⟩ := h
      simp only [List.cons_append, stringsSplit, List.append_eq]
      rw [ih b ha']
      simp [Ne.symm hc]

/-! ### Helper lemmas about `New` and `Parse` -/

theorem New_ok_of (et id : GoString) (het : et ≠ []) (hid : id ≠ []) :
    New SecureMessaging et id = (⟨Scheme, SecureMessaging, et, id⟩, none) := by
  have hsm : SecureMessaging ≠ ([] : GoString) := by decide
  unfold New
  simp [hsm, het, hid]

theorem New_snd_none_iff (ns et id : GoString) :
    (New ns et id).2 = none ↔ (ns = SecureMessaging ∧ et ≠ [] ∧ id ≠ []) := by
  have hsm : SecureMessaging ≠ ([] : GoString) := by decide
  by_cases hns : ns = []
  · subst hns; simp [New, Ne.symm hsm]
  by_cases het : et = []
  · subst het; simp [New, hns]
  by_cases hid : id = []
  · subst hid; simp [New, hns, het]
  by_cases hne : ns = SecureMessaging
  · subst hne; simp [New, hsm, het, hid]
  · simp [New, hns, het, hid, hne]

theorem Parse_legacy (s : GoString) (hs : s ≠ [])
    (h1 : (stringsSplit urnDelimiter s).length = 1) :
    Parse s = New SecureMessaging EntityTypeUser s := by
  obtain ⟨p, hp⟩ := List.length_eq_one.mp h1
  unfold Parse
  rw [if_neg hs, hp]

theorem Parse_other (s : GoString) (hs : s ≠ [])
    (h1 : (stringsSplit urnDelimiter s).length ≠ 1)
    (h4 : (stringsSplit urnDelimiter s).length ≠ 4) :
    Parse s = (URN.zero, some (.wrongPartCount (stringsSplit urnDelimiter s).length)) := by
  unfold Parse
  rw [if_neg hs]
  rcases hsp : stringsSplit urnDelimiter s with _ | ⟨p0, _ | ⟨p1, _ | ⟨p2, _ | ⟨p3, _ | ⟨p4, rest⟩⟩⟩⟩⟩
  · exact absurd hsp (stringsSplit_ne_nil _ _)
  · rw [hsp] at h1; simp at h1
  · rfl
  · rfl
  · rw [hsp] at h4; simp at h4
  · rfl

theorem Parse_four (s p0 p1 p2 p3 : GoString) (hs : s ≠ [])
    (hsp : stringsSplit urnDelimiter s = [p0, p1, p2, p3]) :
    Parse s =
      if p0 ≠ Scheme then (URN.zero, some (.invalidScheme p0))
      else if p1 ≠ SecureMessaging then (URN.zero, some (.invalidNamespace p1))
      else if p2 = [] then (URN.zero, some .emptyEntityType)
      else if p3 = [] then (URN.zero, some .emptyEntityID)
      else (⟨p0, p1, p2, p3⟩, none) := by
  unfold Parse
  rw [if_neg hs, hsp]

/-! ### Helper lemmas about `URN.string` -/

theorem string_mk (p0 p1 p2 p3 : GoString) (h : p0 ≠ []) :
    URN.string ⟨p0, p1, p2, p3⟩ =
      p0 ++ urnDelimiter :: (p1 ++ urnDelimiter :: (p2 ++ urnDelimiter :: p3)) := by
  unfold URN.string
  rw [if_neg (by simp [URN.IsZero, h])]
  simp [List.cons_append, List.append_assoc]

theorem string_mk_ne_nil (p0 p1 p2 p3 : GoString) (h : p0 ≠ []) :
    URN.string ⟨p0, p1, p2, p3⟩ ≠ [] := by
  rw [string_mk _ _ _ _ h]
  simp

theorem stringsSplit_string_mk (p2 p3 : GoString)
    (h2 : urnDelimiter ∉ p2) (h3 : urnDelimiter ∉ p3) :
    stringsSplit urnDelimiter (URN.string ⟨Scheme, SecureMessaging, p2, p3⟩) =
      [Scheme, SecureMessaging, p2, p3] := by
  rw [string_mk _ _ _ _ (by decide)]
  rw [stringsSplit_append urnDelimiter Scheme _ (by decide)]
  rw [stringsSplit_append urnDelimiter SecureMessaging _ (by decide)]
  rw [stringsSplit_append urnDelimiter p2 _ h2]
  rw [stringsSplit_of_not_mem urnDelimiter p3 h3]

/-! ### Claim C1 -/

/-- C1 (amended): for every triple of non-empty strings whose namespace is
in the accepted set and whose entity type and entity ID contain no
delimiter character, `New` succeeds with a URN `x` and `Parse (x.String())`
succeeds returning `x` itself. -/
theorem C1_roundtrip (ns et id : GoString) (hns : ns ∈ acceptedNamespaces)
    (het : et ≠ []) (hid : id ≠ [])
    (hcet : urnDelimiter ∉ et) (hcid : urnDelimiter ∉ id) :
    New ns et id = (⟨Scheme, ns, et, id⟩, none) ∧
    Parse (URN.string ⟨Scheme, ns, et, id⟩) = (⟨Scheme, ns, et, id⟩, none) := by
  have hsm : ns = SecureMessaging := by simpa [acceptedNamespaces] using hns
  subst hsm
  refine ⟨New_ok_of et id het hid, ?_⟩
  have hne := string_mk_ne_nil Scheme SecureMessaging et id (by decide)
  rw [Parse_four _ Scheme SecureMessaging et id hne (stringsSplit_string_mk et id hcet hcid)]
  simp [het, hid]

/-- C1 (witness): the round-trip at the concrete triple ("sm", "user", "alice-123"). -/
theorem C1_roundtrip_witness :
    New (gs "sm") (gs "user") (gs "alice-123")
      = (⟨Scheme, gs "sm", gs "user", gs "alice-123"⟩, none) ∧
    Parse (URN.string ⟨Scheme, gs "sm", gs "user", gs "alice-123"⟩)
      = (⟨Scheme, gs "sm", gs "user", gs "alice-123"⟩, none) :=
  C1_roundtrip (gs "sm") (gs "user") (gs "alice-123")
    (by decide) (by decide) (by decide) (by decide) (by decide)

/-- C1 (counterexample): the claim as stated fails: the triple
("sm", "user", "a:b") has all components non-empty and its namespace in
the accepted set, `New` accepts it, but the printed form splits into five
parts and `Parse` rejects it. -/
theorem C1_roundtrip_counterexample :
    New (gs "sm") (gs "user") (gs "a:b")
      = (⟨gs "urn", gs "sm", gs "user", gs "a:b"⟩, none) ∧
    (Parse (URN.string ⟨gs "urn", gs "sm", gs "user", gs "a:b"⟩)).2
      = some (.wrongPartCount 5) := by
  constructor <;> decide

/-! ### Outcome lemmas: each operation yields zero-or-valid, and errors pair with zero -/

theorem Valid_mk (p0 p1 p2 p3 : GoString) (h0 : p0 = Scheme) (h1 : p1 = SecureMessaging)
    (h2 : p2 ≠ []) (h3 : p3 ≠ []) : URN.Valid ⟨p0, p1, p2, p3⟩ := by
  subst h0; subst h1
  refine ⟨?_, ?_, h2, h3, ?_, rfl⟩
  · show Scheme ≠ []
    decide
  · show SecureMessaging ≠ []
    decide
  · show SecureMessaging ∈ acceptedNamespaces
    decide

theorem New_outcome (ns et id : GoString) :
    ((New ns et id).1 = URN.zero ∨ (New ns et id).1.Valid) ∧
    ((New ns et id).2.isSome = true → (New ns et id).1 = URN.zero) := by
  by_cases h1 : ns = [] ∨ et = [] ∨ id = []
  · constructor
    · left; simp [New, h1]
    · intro _; simp [New, h1]
  by_cases h2 : ns = SecureMessaging
  · push_neg at h1
    obtain ⟨hns, het, hid⟩ := h1
    subst h2
    rw [New_ok_of et id het hid]
    constructor
    · right
      exact Valid_mk Scheme SecureMessaging et id rfl rfl het hid
    · intro h; simp at h
  · constructor
    · left; simp [New, h1, h2]
    · intro _; simp [New, h1, h2]

theorem Parse_outcome (s : GoString) :
    ((Parse s).1 = URN.zero ∨ (Parse s).1.Valid) ∧
    ((Parse s).2.isSome = true → (Parse s).1 = URN.zero) := by
  by_cases hs : s = []
  · constructor
    · left; simp [Parse, hs]
    · intro h; simp [Parse, hs] at h
  rcases hsp : stringsSplit urnDelimiter s with _ | ⟨p0, rest0⟩
  · exact absurd hsp (stringsSplit_ne_nil _ _)
  rcases rest0 with _ | ⟨p1, rest1⟩
  · rw [Parse_legacy s hs (by rw [hsp]; rfl)]
    exact New_outcome _ _ _
  rcases rest1 with _ | ⟨p2, rest2⟩
  · rw [Parse_other s hs (by rw [hsp]; simp) (by rw [hsp]; simp)]
    exact ⟨Or.inl rfl, fun _ => rfl⟩
  rcases rest2 with _ | ⟨p3, rest3⟩
  · rw [Parse_other s hs (by rw [hsp]; simp) (by rw [hsp]; simp)]
    exact ⟨Or.inl rfl, fun _ => rfl⟩
  rcases rest3 with _ | ⟨p4, rest4⟩
  · rw [Parse_four s p0 p1 p2 p3 hs hsp]
    by_cases h0 : p0 ≠ Scheme
    · rw [if_pos h0]; exact ⟨Or.inl rfl, fun _ => rfl⟩
    rw [if_neg h0]
    by_cases h1 : p1 ≠ SecureMessaging
    · rw [if_pos h1]; exact ⟨Or.inl rfl, fun _ => rfl⟩
    rw [if_neg h1]
    by_cases h2 : p2 = []
    · rw [if_pos h2]; exact ⟨Or.inl rfl, fun _ => rfl⟩
    rw [if_neg h2]
    by_cases h3 : p3 = []
    · rw [if_pos h3]; exact ⟨Or.inl rfl, fun _ => rfl⟩
    rw [if_neg h3]
    push_neg at h0 h1
    constructor
    · right
      exact Valid_mk p0 p1 p2 p3 h0 h1 h2 h3
    · intro h; simp at h
  · rw [Parse_other s hs (by rw [hsp]; simp only [List.length_cons]; omega)
        (by rw [hsp]; simp only [List.length_cons]; omega)]
    exact ⟨Or.inl rfl, fun _ => rfl⟩

theorem FromProto_outcome (pb : Option UrnPb) :
    ((FromProto pb).1 = URN.zero ∨ (FromProto pb).1.Valid) ∧
    ((FromProto pb).2.isSome = true → (FromProto pb).1 = URN.zero) := by
  cases pb with
  | none => exact ⟨Or.inl rfl, fun _ => rfl⟩
  | some pb =>
      rcases hN : New pb.nspace pb.entityType pb.entityId with ⟨v, e⟩
      cases e with
      | none =>
          have hv := (New_outcome pb.nspace pb.entityType pb.entityId).1
          rw [hN] at hv
          have hFP : FromProto (some pb) = (v, none) := by simp [FromProto, hN]
          rw [hFP]
          exact ⟨hv, fun h => by simp at h⟩
      | some err =>
          have hFP : FromProto (some pb) = (URN.zero, some (.fromProtoWrap err)) := by
            simp [FromProto, hN]
          rw [hFP]
          exact ⟨Or.inl rfl, fun _ => rfl⟩

theorem UnmarshalJSON_ok_zero_or_valid (u : URN) (d : JValue)
    (h : (UnmarshalJSON u d).2 = none) :
    (UnmarshalJSON u d).1 = URN.zero ∨ (UnmarshalJSON u d).1.Valid := by
  cases d with
  | null => exact Or.inl rfl
  | str s =>
      by_cases hs : s = []
      · subst hs; exact Or.inl rfl
      · rcases hP : Parse s with ⟨v, e⟩
        cases e with
        | none =>
            have hv := (Parse_outcome s).1
            rw [hP] at hv
            have hUJ : UnmarshalJSON u (JValue.str s) = (v, none) := by
              simp [UnmarshalJSON, jsonUnmarshalString, hs, hP]
            rw [hUJ]
            exact hv
        | some err =>
            have hUJ : UnmarshalJSON u (JValue.str s) = (u, some err) := by
              simp [UnmarshalJSON, jsonUnmarshalString, hs, hP]
            rw [hUJ] at h
            cases h
  | num n => exact absurd h (by simp [UnmarshalJSON, jsonUnmarshalString])
  | boolean b => exact absurd h (by simp [UnmarshalJSON, jsonUnmarshalString])
  | arr => exact absurd h (by simp [UnmarshalJSON, jsonUnmarshalString])
  | obj => exact absurd h (by simp [UnmarshalJSON, jsonUnmarshalString])

/-! ### Claim C2 -/

/-- C2: every URN value returned by `New`, `Parse`, `FromProto` or a
successful `UnmarshalJSON` is either the zero value or fully valid (all
four fields non-empty, namespace in the accepted set, scheme the fixed
literal), and every error outcome of `New`, `Parse` and `FromProto` is
accompanied by the zero value. -/
theorem C2_all_or_nothing :
    (∀ ns et id, ((New ns et id).1 = URN.zero ∨ (New ns et id).1.Valid) ∧
        ((New ns et id).2.isSome = true → (New ns et id).1 = URN.zero)) ∧
    (∀ s, ((Parse s).1 = URN.zero ∨ (Parse s).1.Valid) ∧
        ((Parse s).2.isSome = true → (Parse s).1 = URN.zero)) ∧
    (∀ pb, ((FromProto pb).1 = URN.zero ∨ (FromProto pb).1.Valid) ∧
        ((FromProto pb).2.isSome = true → (FromProto pb).1 = URN.zero)) ∧
    (∀ u d, (UnmarshalJSON u d).2 = none →
        (UnmarshalJSON u d).1 = URN.zero ∨ (UnmarshalJSON u d).1.Valid) :=
  ⟨New_outcome, Parse_outcome, FromProto_outcome, UnmarshalJSON_ok_zero_or_valid⟩

/-- C2 (witness): the invariant evaluated at concrete inputs: a failing
`New` call yields the zero value, and parsing a concrete valid string
yields a zero-or-valid URN. -/
theorem C2_all_or_nothing_witness :
    (New (gs "bad") (gs "user") (gs "x")).1 = URN.zero ∧
    ((Parse (gs "urn:sm:user:bob")).1 = URN.zero ∨ (Parse (gs "urn:sm:user:bob")).1.Valid) ∧
    ((UnmarshalJSON URN.zero JValue.null).1 = URN.zero ∨
      (UnmarshalJSON URN.zero JValue.null).1.Valid) :=
  ⟨(C2_all_or_nothing.1 (gs "bad") (gs "user") (gs "x")).2 (by decide),
   (C2_all_or_nothing.2.1 (gs "urn:sm:user:bob")).1,
   C2_all_or_nothing.2.2.2 URN.zero JValue.null (by decide)⟩

/-! ### Claim C3 -/

/-- C3 (amended): a validation failure of `New` is an error that is or
wraps `ErrInvalidFormat` exactly when some component is empty, and a
failure of `Parse` is one exactly when the part count is neither one nor
four; disallowed-namespace, wrong-scheme and empty-entity failures are
distinct errors that do not wrap `ErrInvalidFormat`. -/
theorem C3_invalid_format_characterisation :
    (∀ ns et id e, (New ns et id).2 = some e →
        (e.isInvalidFormat = true ↔ (ns = [] ∨ et = [] ∨ id = []))) ∧
    (∀ s e, (Parse s).2 = some e →
        (e.isInvalidFormat = true ↔
          ((stringsSplit urnDelimiter s).length ≠ 1 ∧
           (stringsSplit urnDelimiter s).length ≠ 4))) := by
  constructor
  · intro ns et id e he
    by_cases h1 : ns = [] ∨ et = [] ∨ id = []
    · have hN2 : (New ns et id).2 = some URNError.errInvalidFormat := by simp [New, h1]
      rw [hN2] at he
      obtain rfl := Option.some.inj he
      exact iff_of_true (by rfl) h1
    by_cases h2 : ns = SecureMessaging
    · exfalso
      push_neg at h1
      obtain ⟨hns, het, hid⟩ := h1
      subst h2
      rw [New_ok_of et id het hid] at he
      exact Option.noConfusion he
    · have hN2 : (New ns et id).2 = some (URNError.invalidNamespace ns) := by
        simp [New, h1, h2]
      rw [hN2] at he
      obtain rfl := Option.some.inj he
      exact iff_of_false (by simp [URNError.isInvalidFormat]) h1
  · intro s e he
    by_cases hs : s = []
    · subst hs; simp [Parse] at he
    rcases hsp : stringsSplit urnDelimiter s with _ | ⟨p0, rest0⟩
    · exact absurd hsp (stringsSplit_ne_nil _ _)
    rcases rest0 with _ | ⟨p1, rest1⟩
    · rw [Parse_legacy s hs (by rw [hsp]; rfl)] at he
      rw [New_ok_of EntityTypeUser s (by decide) hs] at he
      exact Option.noConfusion he
    rcases rest1 with _ | ⟨p2, rest2⟩
    · rw [Parse_other s hs (by rw [hsp]; simp) (by rw [hsp]; simp)] at he
      obtain rfl := Option.some.inj he
      rw [hsp]
      exact iff_of_true (by rfl) (by simp)
    rcases rest2 with _ | ⟨p3, rest3⟩
    · rw [Parse_other s hs (by rw [hsp]; simp) (by rw [hsp]; simp)] at he
      obtain rfl := Option.some.inj he
      rw [hsp]
      exact iff_of_true (by rfl) (by simp)
    rcases rest3 with _ | ⟨p4, rest4⟩
    · rw [Parse_four s p0 p1 p2 p3 hs hsp] at he
      have hRHS : ¬(([p0, p1, p2, p3] : List GoString).length ≠ 1 ∧
          ([p0, p1, p2, p3] : List GoString).length ≠ 4) := by simp
      by_cases h0 : p0 ≠ Scheme
      · rw [if_pos h0] at he
        obtain rfl := Option.some.inj he
        exact iff_of_false (by simp [URNError.isInvalidFormat]) hRHS
      rw [if_neg h0] at he
      by_cases hh1 : p1 ≠ SecureMessaging
      · rw [if_pos hh1] at he
        obtain rfl := Option.some.inj he
        exact iff_of_false (by simp [URNError.isInvalidFormat]) hRHS
      rw [if_neg hh1] at he
      by_cases hh2 : p2 = []
      · rw [if_pos hh2] at he
        obtain rfl := Option.some.inj he
        exact iff_of_false (by simp [URNError.isInvalidFormat]) hRHS
      rw [if_neg hh2] at he
      by_cases hh3 : p3 = []
      · rw [if_pos hh3] at he
        obtain rfl := Option.some.inj he
        exact iff_of_false (by simp [URNError.isInvalidFormat]) hRHS
      rw [if_neg hh3] at he
      exact Option.noConfusion he
    · rw [Parse_other s hs (by rw [hsp]; simp only [List.length_cons]; omega)
          (by rw [hsp]; simp only [List.length_cons]; omega)] at he
      obtain rfl := Option.some.inj he
      rw [hsp]
      exact iff_of_true (by rfl)
        ⟨by simp only [List.length_cons]; omega, by simp only [List.length_cons]; omega⟩

/-- C3 (witness): the characterisation applied at the concrete failing
call `New("", "user", "x")`, whose error is the sentinel itself. -/
theorem C3_invalid_format_characterisation_witness :
    URNError.isInvalidFormat URNError.errInvalidFormat = true ↔
      (([] : GoString) = [] ∨ (gs "user") = [] ∨ (gs "x") = []) :=
  C3_invalid_format_characterisation.1 [] (gs "user") (gs "x")
    URNError.errInvalidFormat (by decide)

/-- C3 (counterexample): the claim as stated fails: the validation failure
`New("unknown-ns", "user", "x")` produces the namespace error, which
neither is nor wraps `ErrInvalidFormat`. -/
theorem C3_single_error_kind_counterexample :
    (New (gs "unknown-ns") (gs "user") (gs "x")).2
      = some (.invalidNamespace (gs "unknown-ns")) ∧
    URNError.isInvalidFormat (.invalidNamespace (gs "unknown-ns")) = false := by
  constructor <;> decide

/-! ### Claim C4 -/

/-- C4: for every non-empty input string splitting into exactly one part
(no delimiter present), `Parse` returns exactly the result of
`New(SecureMessaging, "user", input)`. -/
theorem C4_legacy_migration (s : GoString) (hs : s ≠ [])
    (h1 : (stringsSplit urnDelimiter s).length = 1) :
    Parse s = New SecureMessaging EntityTypeUser s :=
  Parse_legacy s hs h1

/-- C4 (witness): the legacy migration at the concrete input "legacy-456". -/
theorem C4_legacy_migration_witness :
    Parse (gs "legacy-456") = New SecureMessaging EntityTypeUser (gs "legacy-456") :=
  C4_legacy_migration (gs "legacy-456") (by decide) (by decide)

/-! ### Claim C5 -/

/-- C5: wire symmetry: for every valid URN `x`, `FromProto (ToProto x)`
succeeds and returns `x`; `ToProto` of the zero URN is absent (`none`);
`FromProto none` is the zero URN with no error; and `FromProto` of a
present record whose namespace is outside the accepted set errors (with
the zero URN). -/
theorem C5_wire_symmetry :
    (∀ x : URN, x.Valid → FromProto (ToProto x) = (x, none)) ∧
    ToProto URN.zero = none ∧
    FromProto none = (URN.zero, none) ∧
    (∀ pb : UrnPb, pb.nspace ∉ acceptedNamespaces →
      (FromProto (some pb)).2.isSome = true ∧ (FromProto (some pb)).1 = URN.zero) := by
  refine ⟨?_, rfl, rfl, ?_⟩
  · intro x hx
    rcases x with ⟨a, b, c, d⟩
    obtain ⟨ha, hb, hc, hd, hmem, hsch⟩ := hx
    simp only [acceptedNamespaces, List.mem_singleton] at hmem
    subst hsch
    subst hmem
    have hS : Scheme ≠ ([] : GoString) := by decide
    have hz : ¬(URN.IsZero ⟨Scheme, SecureMessaging, c, d⟩ = true) := by
      simp [URN.IsZero, hS]
    have hTP : ToProto ⟨Scheme, SecureMessaging, c, d⟩ = some ⟨SecureMessaging, c, d⟩ := by
      unfold ToProto
      rw [if_neg hz]
    rw [hTP]
    have hN : New SecureMessaging c d = (⟨Scheme, SecureMessaging, c, d⟩, none) :=
      New_ok_of c d hc hd
    simp [FromProto, hN]
  · intro pb hmem
    rcases pb with ⟨pn, pt, pi⟩
    simp only [acceptedNamespaces, List.mem_singleton] at hmem
    have hsnd : (New pn pt pi).2.isSome = true := by
      by_cases h1 : pn = [] ∨ pt = [] ∨ pi = []
      · simp [New, h1]
      · simp [New, h1, hmem]
    rcases hN : New pn pt pi with ⟨v, e⟩
    cases e with
    | none => rw [hN] at hsnd; simp at hsnd
    | some err =>
        have hFP : FromProto (some ⟨pn, pt, pi⟩) = (URN.zero, some (.fromProtoWrap err)) := by
          simp [FromProto, hN]
        rw [hFP]
        exact ⟨rfl, rfl⟩

/-- C5 (witness): the proto round trip at the concrete URN
urn:sm:user:recipient-bob, and rejection of an invalid-namespace record. -/
theorem C5_wire_symmetry_witness :
    FromProto (ToProto ⟨gs "urn", gs "sm", gs "user", gs "recipient-bob"⟩)
      = (⟨gs "urn", gs "sm", gs "user", gs "recipient-bob"⟩, none) ∧
    (FromProto (some ⟨gs "invalid-namespace", gs "user", gs "test"⟩)).2.isSome = true :=
  ⟨C5_wire_symmetry.1 ⟨gs "urn", gs "sm", gs "user", gs "recipient-bob"⟩ (by decide),
   (C5_wire_symmetry.2.2.2 ⟨gs "invalid-namespace", gs "user", gs "test"⟩ (by decide)).1⟩

/-! ### Claim C6 -/

/-- C6: zero-value behaviour across representations: `Parse("")` is the
zero URN with no error, whose `IsZero` is true and whose `String()` is
`""`; `MarshalJSON` of that value is the JSON literal `null`;
`UnmarshalJSON` of JSON `null` or of the JSON string `""` yields the zero
URN with no error; and `UnmarshalJSON` of a non-string JSON value (a
number, a boolean, an array, an object) is an error. -/
theorem C6_zero_value_behaviour :
    Parse [] = (URN.zero, none) ∧
    URN.IsZero URN.zero = true ∧
    URN.string URN.zero = [] ∧
    MarshalJSON (Parse []).1 = JValue.null ∧
    (∀ u, UnmarshalJSON u JValue.null = (URN.zero, none)) ∧
    (∀ u, UnmarshalJSON u (JValue.str []) = (URN.zero, none)) ∧
    (∀ u n, (UnmarshalJSON u (JValue.num n)).2.isSome = true) ∧
    (∀ u b, (UnmarshalJSON u (JValue.boolean b)).2.isSome = true) ∧
    (∀ u, (UnmarshalJSON u JValue.arr).2.isSome = true) ∧
    (∀ u, (UnmarshalJSON u JValue.obj).2.isSome = true) :=
  ⟨rfl, rfl, rfl, rfl, fun _ => rfl, fun _ => rfl, fun _ _ => rfl, fun _ _ => rfl,
   fun _ => rfl, fun _ => rfl⟩

/-! ### Claim C7 -/

/-- C7: rejection cases: `Parse("urn:sm:user")` (three parts) fails with
an ErrInvalidFormat-wrapping error; `Parse("bad:sm:user:x")` fails with a
scheme error; `New` fails on each empty argument; `Parse` fails on every
input whose part count is neither one nor four; and `New` fails whenever
any of its three arguments is empty. -/
theorem C7_rejection_cases :
    Parse (gs "urn:sm:user") = (URN.zero, some (.wrongPartCount 3)) ∧
    URNError.isInvalidFormat (.wrongPartCount 3) = true ∧
    (Parse (gs "bad:sm:user:x")).2 = some (.invalidScheme (gs "bad")) ∧
    New [] (gs "user") (gs "x") = (URN.zero, some .errInvalidFormat) ∧
    New (gs "sm") [] (gs "x") = (URN.zero, some .errInvalidFormat) ∧
    New (gs "sm") (gs "user") [] = (URN.zero, some .errInvalidFormat) ∧
    (∀ s, (stringsSplit urnDelimiter s).length ≠ 1 →
      (stringsSplit urnDelimiter s).length ≠ 4 → (Parse s).2.isSome = true) ∧
    (∀ ns et id, (ns = [] ∨ et = [] ∨ id = []) → (New ns et id).2.isSome = true) := by
  refine ⟨by decide, by decide, by decide, by decide, by decide, by decide, ?_, ?_⟩
  · intro s h1 h4
    have hs : s ≠ [] := by
      intro h
      subst h
      simp [stringsSplit] at h1
    rw [Parse_other s hs h1 h4]
    rfl
  · intro ns et id h1
    simp [New, h1]

/-- C7 (witness): the general rejection clauses at concrete inputs: the
two-part string "a:b" and the all-empty argument triple. -/
theorem C7_rejection_cases_witness :
    (Parse (gs "a:b")).2.isSome = true ∧ (New [] [] []).2.isSome = true :=
  ⟨C7_rejection_cases.2.2.2.2.2.2.1 (gs "a:b") (by decide) (by decide),
   C7_rejection_cases.2.2.2.2.2.2.2 [] [] [] (Or.inl rfl)⟩

/-! ### Claim C8 -/

/-- C8: namespace enforcement: for every triple of non-empty strings whose
namespace is not in the accepted set, `New` returns the namespace error
together with the zero URN, never a populated one. -/
theorem C8_namespace_enforcement (ns et id : GoString)
    (hns : ns ≠ []) (het : et ≠ []) (hid : id ≠ [])
    (hmem : ns ∉ acceptedNamespaces) :
    New ns et id = (URN.zero, some (.invalidNamespace ns)) := by
  have h2 : ns ≠ SecureMessaging := by
    simpa [acceptedNamespaces] using hmem
  have h1 : ¬(ns = [] ∨ et = [] ∨ id = []) := by
    push_neg
    exact ⟨hns, het, hid⟩
  simp [New, h1, h2]

/-- C8 (witness): `New("unknown-ns", "user", "x")` fails even though all
three arguments are non-empty. -/
theorem C8_namespace_enforcement_witness :
    New (gs "unknown-ns") (gs "user") (gs "x")
      = (URN.zero, some (.invalidNamespace (gs "unknown-ns"))) :=
  C8_namespace_enforcement (gs "unknown-ns") (gs "user") (gs "x")
    (by decide) (by decide) (by decide) (by decide)

/-! ### Claim C9 -/

/-- C9: the constructor checks only emptiness and namespace membership:
`New` succeeds exactly when the namespace is the accepted constant and the
entity type and ID are non-empty, with no delimiter check; in particular
`New("sm", "user", "a:b")` succeeds with a populated URN whose entityID
contains the delimiter. -/
theorem C9_no_delimiter_enforcement :
    (∀ ns et id, (New ns et id).2 = none ↔
        (ns = SecureMessaging ∧ et ≠ [] ∧ id ≠ [])) ∧
    New (gs "sm") (gs "user") (gs "a:b")
      = (⟨Scheme, SecureMessaging, gs "user", gs "a:b"⟩, none) :=
  ⟨New_snd_none_iff, by decide⟩

/-- C9 (witness): the success criterion applied at a concrete entityID
containing the delimiter. -/
theorem C9_no_delimiter_enforcement_witness :
    (New (gs "sm") (gs "user") (gs "x:y")).2 = none :=
  (C9_no_delimiter_enforcement.1 (gs "sm") (gs "user") (gs "x:y")).mpr
    ⟨by decide, by decide, by decide⟩

/-! ### Claim C10 -/

/-- C10: `UnmarshalJSON` is atomic: on every error outcome (non-string
JSON input, or a string rejected by `Parse`) the receiver is left
completely unchanged. -/
theorem C10_unmarshal_atomic (u : URN) (d : JValue)
    (h : (UnmarshalJSON u d).2.isSome = true) :
    (UnmarshalJSON u d).1 = u := by
  cases d with
  | null => simp [UnmarshalJSON, jsonUnmarshalString] at h
  | str s =>
      by_cases hs : s = []
      · subst hs
        simp [UnmarshalJSON, jsonUnmarshalString] at h
      · rcases hP : Parse s with ⟨v, e⟩
        cases e with
        | none =>
            have hUJ : UnmarshalJSON u (JValue.str s) = (v, none) := by
              simp [UnmarshalJSON, jsonUnmarshalString, hs, hP]
            rw [hUJ] at h
            simp at h
        | some err =>
            have hUJ : UnmarshalJSON u (JValue.str s) = (u, some err) := by
              simp [UnmarshalJSON, jsonUnmarshalString, hs, hP]
            rw [hUJ]
  | num n => rfl
  | boolean b => rfl
  | arr => rfl
  | obj => rfl

/-- C10 (witness): an erroring unmarshal (JSON number input) leaves a
concrete non-zero receiver unchanged. -/
theorem C10_unmarshal_atomic_witness :
    (UnmarshalJSON ⟨gs "urn", gs "sm", gs "user", gs "bob"⟩ (JValue.num 7)).1
      = ⟨gs "urn", gs "sm", gs "user", gs "bob"⟩ :=
  C10_unmarshal_atomic ⟨gs "urn", gs "sm", gs "user", gs "bob"⟩ (JValue.num 7) (by decide)

end UrnSpec
